import Mathlib

/-! User-cluster GlobalDNS controller.

A shallow embedding of
`pkg/controllers/user/globaldns/user_cluster_globaldns_controller.go`
and the properties its specification states about it.

Conventions of the embedding:

* Go strings are `String`; a `[]string` is a `List String` (the source only
  takes `len`, ranges over and appends to its slices, so a nil slice and an
  empty one are both `[]`).
* A Go `map[string]T` is an association list read by first match; a nil map
  and an empty map are both `[]` (the source reads them alike and writes
  only after `make`).
* The listers, the store and the package-level helpers that live outside
  this file are fields of `Env`.
* Every call to an external collaborator is recorded, in order, in a trace
  of `Event`s, so that "never invoked" is a statement about the trace.
-/

namespace UserGlobalDNS

/-! ## Data model -/

/-- A Go `error`, identified with its message. -/
abbrev Error := String

/-- Entry of `Status.LoadBalancer.Ingress` (`v1.LoadBalancerIngress`). -/
structure LoadBalancerIngress where
  ip : String
  hostname : String
  deriving DecidableEq, Repr

/-- The parts of `v1beta1.Ingress` read by the controller. -/
structure Ingress where
  annotations : List (String × String)
  loadBalancer : List LoadBalancerIngress
  deriving DecidableEq, Repr

/-- The parts of `v1.Namespace` read by the controller. -/
structure Namespace where
  name : String
  labels : List (String × String)
  deriving DecidableEq, Repr

/-- One element of `mcapp.Spec.Targets`. -/
structure Target where
  projectName : String
  appName : String
  deriving DecidableEq, Repr

/-- The parts of `v3.MultiClusterApp` read by the controller. -/
structure MultiClusterApp where
  targets : List Target
  deriving DecidableEq, Repr

/-- Fields of `v3.GlobalDNS.Spec`. -/
structure GlobalDNSSpec where
  fqdn : String
  multiClusterAppName : String
  projectNames : List String
  deriving DecidableEq, Repr

/-- Fields of `v3.GlobalDNS.Status`: the published list and the per-cluster map. -/
structure GlobalDNSStatus where
  endpoints : List String
  clusterEndpoints : List (String × List String)
  deriving DecidableEq, Repr

/-- The record `v3.GlobalDNS`; `deletionTimestamp` is the deletion marker. -/
structure GlobalDNS where
  deletionTimestamp : Option Nat
  spec : GlobalDNSSpec
  status : GlobalDNSStatus
  deriving DecidableEq, Repr

/-- A call to an external collaborator. -/
inductive Event where
  | multiclusterappGet (ns name : String)
  | namespaceList
  | ingressList (ns : String)
  | reconcileEndpoints (record : GlobalDNS)
  | storeUpdate (record : GlobalDNS)
  deriving DecidableEq, Repr

/-- The controller `UserGlobalDNSController` together with everything the
file uses but does not define: the listers and the store (interfaces), the
package-level constants and helpers declared in sibling files, and Go's
`strings.EqualFold`. -/
structure Env where
  clusterName : String
  multiclusterappGet : String → String → Except Error MultiClusterApp
  namespaceList : Except Error (List Namespace)
  ingressList : String → Except Error (List Ingress)
  storeUpdate : GlobalDNS → Option GlobalDNS × Option Error
  globalNamespace : String
  annotationGlobalDNS : String
  projectSelectorLabel : String
  getMultiClusterAppName : String → Except Error String
  gatherIngressEndpoints : List LoadBalancerIngress → List String
  ifEndpointsDiffer : List String → List String → Bool
  reconcileGlobalDNSEndpoints : GlobalDNS → GlobalDNS
  equalFold : String → String → Bool

/-- A value of the interface type `runtime.Object`, as `sync` returns it:
the nil interface, or an interface holding a `*v3.GlobalDNS`, a pointer that
may itself be nil. The two are different values in Go. -/
inductive RuntimeObject where
  | nil
  | ofGlobalDNS (ptr : Option GlobalDNS)
  deriving DecidableEq, Repr

/-- A Go return `(value, error)` together with the collaborator calls made. -/
structure Res (α : Type) where
  val : α
  err : Option Error
  trace : List Event

/-! ## Go primitives -/

/-- Map read with the comma-ok form: `v, ok := m[k]`. -/
def mapGet? {β : Type} (m : List (String × β)) (k : String) : Option β :=
  match m with
  | [] => none
  | (k', v) :: rest => if k' = k then some v else mapGet? rest k

/-- Map read `m[k]` of a `map[string]string`: the empty string when absent. -/
def mapGetStr (m : List (String × String)) (k : String) : String :=
  (mapGet? m k).getD ""

/-- Map read `m[k]` of a `map[string][]string`: the nil slice when absent. -/
def mapGetSlice (m : List (String × List String)) (k : String) : List String :=
  (mapGet? m k).getD []

/-- Map write `m[k] = v`. -/
def mapSet {β : Type} (m : List (String × β)) (k : String) (v : β) : List (String × β) :=
  (k, v) :: m.filter (fun e => decide (e.1 ≠ k))

/-- Characters before and after the first `':'`, when there is one. -/
def cutColon : List Char → Option (List Char × List Char)
  | [] => none
  | c :: cs =>
    if c = ':' then some ([], cs)
    else
      match cutColon cs with
      | none => none
      | some (a, b) => some (c :: a, b)

/-- Go `strings.SplitN(s, ":", 2)`. -/
def splitN2 (s : String) : List String :=
  match cutColon s.data with
  | none => [s]
  | some (a, b) => [String.mk a, String.mk b]

/-! ## The controller -/

/-- Loop of `fetchGlobalDNSEndpointsForIngresses` (lines 141-151). -/
def fetchLoop (env : Env) (obj : GlobalDNS) : List Ingress → List String → List String
  | [], allEndpoints => allEndpoints
  | ing :: rest, allEndpoints =>
    match mapGet? ing.annotations env.annotationGlobalDNS with
    | some gdns =>
      if gdns ≠ obj.spec.fqdn then fetchLoop env obj rest allEndpoints
      else fetchLoop env obj rest (allEndpoints ++ env.gatherIngressEndpoints ing.loadBalancer)
    | none => fetchLoop env obj rest allEndpoints

/-- `fetchGlobalDNSEndpointsForIngresses` (lines 134-154). It calls no collaborator. -/
def fetchGlobalDNSEndpointsForIngresses (env : Env) (ingresses : List Ingress)
    (obj : GlobalDNS) : List String × Option Error :=
  if ingresses.length = 0 then ([], none)
  else (fetchLoop env obj ingresses [], none)

/-- Loop over `mcapp.Spec.Targets` in `reconcileMultiClusterApp` (lines 73-92). -/
def targetsLoop (env : Env) (obj : GlobalDNS) :
    List Target → List Ingress → List Event → Res (List String)
  | [], allIngresses, tr =>
    let r := fetchGlobalDNSEndpointsForIngresses env allIngresses obj
    ⟨r.1, r.2, tr⟩
  | t :: rest, allIngresses, tr =>
    match splitN2 t.projectName with
    | [c, _] =>
      if c ≠ env.clusterName then targetsLoop env obj rest allIngresses tr
      else
        match env.ingressList t.appName with
        | .error e => ⟨[], some e, tr ++ [Event.ingressList t.appName]⟩
        | .ok ingresses =>
          targetsLoop env obj rest (allIngresses ++ ingresses)
            (tr ++ [Event.ingressList t.appName])
    | _ => ⟨[], some ("error in splitting project ID " ++ t.projectName), tr⟩

/-- `reconcileMultiClusterApp` (lines 58-93). -/
def reconcileMultiClusterApp (env : Env) (obj : GlobalDNS) : Res (List String) :=
  match env.getMultiClusterAppName obj.spec.multiClusterAppName with
  | .error e => ⟨[], some e, []⟩
  | .ok mcappName =>
    match env.multiclusterappGet env.globalNamespace mcappName with
    | .error e => ⟨[], some e, [Event.multiclusterappGet env.globalNamespace mcappName]⟩
    | .ok mcapp =>
      targetsLoop env obj mcapp.targets []
        [Event.multiclusterappGet env.globalNamespace mcappName]

/-- Inner loop of `reconcileProjects` (lines 116-121): names of the
namespaces whose project label folds to `projectID`. -/
def namespacesInProject (env : Env) (projectID : String) :
    List Namespace → List String → List String
  | [], acc => acc
  | ns :: rest, acc =>
    let nameSpaceProject := mapGetStr ns.labels env.projectSelectorLabel
    if env.equalFold projectID nameSpaceProject then
      namespacesInProject env projectID rest (acc ++ [ns.name])
    else namespacesInProject env projectID rest acc

/-- Inner loop of `reconcileProjects` (lines 122-128): list the ingresses of
each namespace; `Except.error` is the early `return nil, err`. -/
def listNamespacesLoop (env : Env) :
    List String → List Ingress → List Event → Except Error (List Ingress) × List Event
  | [], allIngresses, tr => (.ok allIngresses, tr)
  | ns :: rest, allIngresses, tr =>
    match env.ingressList ns with
    | .error e => (.error e, tr ++ [Event.ingressList ns])
    | .ok ingresses =>
      listNamespacesLoop env rest (allIngresses ++ ingresses) (tr ++ [Event.ingressList ns])

/-- Loop over `obj.Spec.ProjectNames` in `reconcileProjects` (lines 104-131). -/
def projectsLoop (env : Env) (obj : GlobalDNS) (allNamespaces : List Namespace) :
    List String → List Ingress → List Event → Res (List String)
  | [], allIngresses, tr =>
    let r := fetchGlobalDNSEndpointsForIngresses env allIngresses obj
    ⟨r.1, r.2, tr⟩
  | projectNameSet :: rest, allIngresses, tr =>
    match splitN2 projectNameSet with
    | [c, projectID] =>
      if c ≠ env.clusterName then projectsLoop env obj allNamespaces rest allIngresses tr
      else
        match listNamespacesLoop env (namespacesInProject env projectID allNamespaces [])
            allIngresses tr with
        | (.error e, tr') => ⟨[], some e, tr'⟩
        | (.ok allIngresses', tr') => projectsLoop env obj allNamespaces rest allIngresses' tr'
    | _ =>
      ⟨[], some ("UserGlobalDNSController: Error in splitting project Name " ++ projectNameSet),
        tr⟩

/-- `reconcileProjects` (lines 95-132). -/
def reconcileProjects (env : Env) (obj : GlobalDNS) : Res (List String) :=
  match env.namespaceList with
  | .error _ =>
    ⟨[], some "UserGlobalDNSController: Error listing cluster namespaces", [Event.namespaceList]⟩
  | .ok allNamespaces =>
    projectsLoop env obj allNamespaces obj.spec.projectNames [] [Event.namespaceList]

/-- Outcome of `refreshGlobalDNSEndpoints`: the Go return values, the calls
made, and the caller's record as the call leaves it. -/
structure RefreshOutcome where
  res : Res (Option GlobalDNS)
  input : GlobalDNS

/-- `refreshGlobalDNSEndpoints` (lines 156-176). All writes go to
`globalDNSToUpdate`, the deep copy; `input` is the caller's `globalDNS`. -/
def refreshGlobalDNSEndpoints (env : Env) (globalDNS : GlobalDNS)
    (ingressEndpointsForCluster : List String) : RefreshOutcome :=
  let globalDNSToUpdate := globalDNS
  let globalDNSToUpdate :=
    if globalDNSToUpdate.status.clusterEndpoints.length = 0 then
      { globalDNSToUpdate with status := { globalDNSToUpdate.status with clusterEndpoints := [] } }
    else globalDNSToUpdate
  let clusterEps := mapGetSlice globalDNSToUpdate.status.clusterEndpoints env.clusterName
  if env.ifEndpointsDiffer clusterEps ingressEndpointsForCluster then
    let globalDNSToUpdate :=
      { globalDNSToUpdate with
        status := { globalDNSToUpdate.status with
          clusterEndpoints :=
            mapSet globalDNSToUpdate.status.clusterEndpoints env.clusterName
              ingressEndpointsForCluster } }
    let merged := env.reconcileGlobalDNSEndpoints globalDNSToUpdate
    let tr := [Event.reconcileEndpoints globalDNSToUpdate, Event.storeUpdate merged]
    match env.storeUpdate merged with
    | (updated, some err) =>
      ⟨⟨updated,
          some ("UserGlobalDNSController: Failed to update GlobalDNS endpoints with error " ++ err),
          tr⟩, globalDNS⟩
    | (updated, none) => ⟨⟨updated, none, tr⟩, globalDNS⟩
  else ⟨⟨none, none, []⟩, globalDNS⟩

/-- `sync` (lines 36-56); `obj = none` is the nil pointer. Lines 38 and 51
return the literal `nil`, the nil interface; line 55 returns the
`*v3.GlobalDNS` of `refreshGlobalDNSEndpoints` converted to `runtime.Object`,
an interface that holds the pointer even when the pointer is nil. -/
def sync (env : Env) (obj : Option GlobalDNS) : Res RuntimeObject :=
  match obj with
  | none => ⟨RuntimeObject.nil, none, []⟩
  | some obj =>
    if obj.deletionTimestamp ≠ none then ⟨RuntimeObject.nil, none, []⟩
    else
      let r : Res (List String) :=
        if obj.spec.multiClusterAppName ≠ "" then reconcileMultiClusterApp env obj
        else if obj.spec.projectNames.length > 0 then reconcileProjects env obj
        else ⟨[], none, []⟩
      match r.err with
      | some err => ⟨RuntimeObject.nil, some err, r.trace⟩
      | none =>
        let out := refreshGlobalDNSEndpoints env obj r.val
        ⟨RuntimeObject.ofGlobalDNS out.res.val, out.res.err, r.trace ++ out.res.trace⟩

/-! ## Collaborators modelled from the specification

The helpers below are declared in sibling files of the package. The
theorems take them as the fields of `Env`; these definitions instantiate
the fields in the concrete scenarios. -/

/-- Modelled from the spec: `ifEndpointsDiffer`, declared outside this file.
Section 4.4: two sequences are equal only if they have the same length and
the same multiset of values; they differ otherwise. -/
def ifEndpointsDifferSpec (endpointsOne endpointsTwo : List String) : Bool :=
  !(decide (endpointsOne.length = endpointsTwo.length) && endpointsOne.isPerm endpointsTwo)

/-- Modelled from the spec: `gatherIngressEndpoints`, declared outside this
file. Section 4.3: each load-balancer entry contributes its reported
address, hostname or IP, in the order received (the IP when both are set,
nothing when neither is). -/
def gatherIngressEndpointsSpec : List LoadBalancerIngress → List String
  | [] => []
  | ep :: rest =>
    if ep.ip ≠ "" then ep.ip :: gatherIngressEndpointsSpec rest
    else if ep.hostname ≠ "" then ep.hostname :: gatherIngressEndpointsSpec rest
    else gatherIngressEndpointsSpec rest

/-- Modelled from the spec: `reconcileGlobalDNSEndpoints`, declared outside
this file. Sections 4.4 and 6: it merges all clusters' entries of
`perClusterEndpoints` into the single published list, deduplicated by value,
and touches nothing else. -/
def reconcileGlobalDNSEndpointsSpec (r : GlobalDNS) : GlobalDNS :=
  { r with
    status := { r.status with
      endpoints := (r.status.clusterEndpoints.flatMap Prod.snd).eraseDups } }

/-- ASCII case folding; agrees with Go `strings.EqualFold` on ASCII strings. -/
def asciiEqualFold (a b : String) : Bool :=
  decide (a.data.map Char.toLower = b.data.map Char.toLower)

/-! ## Specification-side vocabulary -/

/-- The part of a composite identifier before its first `':'`, if it has one. -/
def clusterPart (s : String) : Option String :=
  (cutColon s.data).map (fun p => String.mk p.1)

/-- The entry names this controller's cluster. -/
def ofThisCluster (env : Env) (s : String) : Bool :=
  decide (clusterPart s = some env.clusterName)

/-- The ingress carries the DNS-target annotation with the record's FQDN. -/
def annotatedFor (env : Env) (obj : GlobalDNS) (ing : Ingress) : Bool :=
  decide (mapGet? ing.annotations env.annotationGlobalDNS = some obj.spec.fqdn)

/-- What the ingress lister holds for a namespace (nothing when it fails). -/
def ingressesOf (env : Env) (ns : String) : List Ingress :=
  match env.ingressList ns with
  | .ok l => l
  | .error _ => []

/-- Names, in snapshot order, of the namespaces whose project label (the
empty string when absent) equals `projectID` ignoring case. -/
def namespacesLabelled (env : Env) (projectID : String) (nss : List Namespace) : List String :=
  (nss.filter (fun ns => env.equalFold projectID (mapGetStr ns.labels env.projectSelectorLabel))).map
    (fun ns => ns.name)

/-- Namespaces in scope of a project list: per entry of this cluster, in
list order, the namespaces labelled with the entry's project. -/
def scopedNamespaces (env : Env) (projectRefs : List String) (nss : List Namespace) :
    List String :=
  projectRefs.flatMap fun e =>
    match cutColon e.data with
    | some (c, p) =>
      if String.mk c = env.clusterName then namespacesLabelled env (String.mk p) nss else []
    | none => []

/-- The environment in which the multi-cluster-app lookup returns only the
targets of this cluster. -/
def Env.keepOwnTargets (env : Env) : Env :=
  { env with
    multiclusterappGet := fun ns name =>
      match env.multiclusterappGet ns name with
      | .ok mcapp => .ok ⟨mcapp.targets.filter (fun t => ofThisCluster env t.projectName)⟩
      | .error e => .error e }

/-- The record with its project list reduced to the entries of this cluster. -/
def keepOwnProjects (env : Env) (obj : GlobalDNS) : GlobalDNS :=
  { obj with
    spec := { obj.spec with projectNames := obj.spec.projectNames.filter (ofThisCluster env) } }

/-- The deep copy after line 167: this cluster's entry set to the new sequence. -/
def withClusterEndpoints (env : Env) (globalDNS : GlobalDNS) (eps : List String) : GlobalDNS :=
  { globalDNS with
    status := { globalDNS.status with
      clusterEndpoints := mapSet globalDNS.status.clusterEndpoints env.clusterName eps } }

/-- The endpoint sequence stored for this cluster (`clusterEps`, line 164). -/
def storedEndpoints (env : Env) (globalDNS : GlobalDNS) : List String :=
  mapGetSlice globalDNS.status.clusterEndpoints env.clusterName

/-- The scope-resolution step of `sync` (lines 41-48): `targetEndpoints`
and `err` as they stand at line 50. -/
def targetEndpointsOf (env : Env) (obj : GlobalDNS) : Res (List String) :=
  if obj.spec.multiClusterAppName ≠ "" then reconcileMultiClusterApp env obj
  else if obj.spec.projectNames.length > 0 then reconcileProjects env obj
  else ⟨[], none, []⟩

/-! ## Concrete scenarios -/

/-- An ingress annotated for `fqdn` whose load balancer reports one IP. -/
def annotatedIngress (fqdn ip : String) : Ingress :=
  ⟨[("rancher.io/globalDNS.hostname", fqdn)], [⟨ip, ""⟩]⟩

/-- Cluster `c1` of the scenarios of section 8: namespaces `ns1` and `ns2`
belong to project `p1`, `default` carries no project label; multi-cluster
app `shop` targets `c1`, `c2` and `c1` again, `broken` has a target
without `':'`; the store persists what it is handed. -/
def scenarioEnv : Env where
  clusterName := "c1"
  multiclusterappGet := fun ns name =>
    if ns = "cattle-global-data" ∧ name = "shop" then
      .ok ⟨[⟨"c1:p1", "app1"⟩, ⟨"c2:p7", "app2"⟩, ⟨"c1:p2", "app3"⟩]⟩
    else if ns = "cattle-global-data" ∧ name = "broken" then
      .ok ⟨[⟨"c1:p1", "app1"⟩, ⟨"p2", "app3"⟩]⟩
    else .error "multiclusterapp not found"
  namespaceList :=
    .ok [⟨"ns1", [("field.cattle.io/projectId", "p1")]⟩, ⟨"default", []⟩,
      ⟨"other", [("field.cattle.io/projectId", "p9")]⟩,
      ⟨"ns2", [("field.cattle.io/projectId", "p1")]⟩]
  ingressList := fun ns =>
    if ns = "ns1" then .ok [annotatedIngress "a.example.com" "10.0.0.1"]
    else if ns = "ns2" then .ok [annotatedIngress "a.example.com" "10.0.0.2"]
    else if ns = "default" then .ok [annotatedIngress "a.example.com" "10.0.5.5"]
    else if ns = "app1" then
      .ok [annotatedIngress "a.example.com" "10.0.1.1", annotatedIngress "b.example.com" "10.0.9.9"]
    else if ns = "app2" then .error "namespace of another cluster"
    else if ns = "app3" then .ok [⟨[], [⟨"10.0.3.3", ""⟩]⟩]
    else .ok []
  storeUpdate := fun r => (some r, none)
  globalNamespace := "cattle-global-data"
  annotationGlobalDNS := "rancher.io/globalDNS.hostname"
  projectSelectorLabel := "field.cattle.io/projectId"
  getMultiClusterAppName := fun s => .ok s
  gatherIngressEndpoints := gatherIngressEndpointsSpec
  ifEndpointsDiffer := ifEndpointsDifferSpec
  reconcileGlobalDNSEndpoints := reconcileGlobalDNSEndpointsSpec
  equalFold := asciiEqualFold

/-- A record for `a.example.com` with the given mode fields and stored map. -/
def recordFor (mcapp : String) (projects : List String)
    (stored : List (String × List String)) : GlobalDNS :=
  ⟨none, ⟨"a.example.com", mcapp, projects⟩, ⟨[], stored⟩⟩

/-! ## Lemmas on the primitives -/

theorem mapGet?_mapSet_self {β : Type} (m : List (String × β)) (k : String) (v : β) :
    mapGet? (mapSet m k v) k = some v := by
  simp [mapSet, mapGet?]

theorem mapGet?_filter_ne {β : Type} (m : List (String × β)) (k k' : String) (h : k' ≠ k) :
    mapGet? (m.filter (fun e => decide (e.1 ≠ k))) k' = mapGet? m k' := by
  induction m with
  | nil => rfl
  | cons e rest ih =>
    obtain ⟨a, b⟩ := e
    by_cases hak : a = k
    · subst hak
      have hne : ¬ a = k' := fun h' => h h'.symm
      rw [List.filter_cons_of_neg (by simp)]
      simp only [mapGet?, hne, if_false]
      exact ih
    · rw [List.filter_cons_of_pos (by simpa using hak)]
      by_cases hak' : a = k'
      · simp [mapGet?, hak']
      · simp only [mapGet?, hak', if_false]
        exact ih

theorem mapGet?_mapSet_ne {β : Type} (m : List (String × β)) (k k' : String) (v : β)
    (h : k' ≠ k) : mapGet? (mapSet m k v) k' = mapGet? m k' := by
  have hk : ¬ k = k' := fun h' => h h'.symm
  simp only [mapSet, mapGet?, hk, if_false]
  exact mapGet?_filter_ne m k k' h

theorem cutColon_eq_none_iff (cs : List Char) : cutColon cs = none ↔ ':' ∉ cs := by
  induction cs with
  | nil => simp [cutColon]
  | cons c rest ih =>
    by_cases hc : c = ':'
    · simp [cutColon, hc]
    · have hc' : ¬ ':' = c := fun h => hc h.symm
      cases hr : cutColon rest with
      | none => simp [cutColon, hc, hc', hr, ih.mp hr]
      | some p =>
        have : ¬ (':' ∉ rest) := fun h => by simp [ih.mpr h] at hr
        simp only [not_not] at this
        simp [cutColon, hc, hr, this]

theorem splitN2_of_no_colon (s : String) (h : ':' ∉ s.data) : splitN2 s = [s] := by
  simp [splitN2, (cutColon_eq_none_iff s.data).mpr h]

theorem splitN2_of_colon (s : String) (h : ':' ∈ s.data) :
    ∃ a b, cutColon s.data = some (a, b) ∧ splitN2 s = [String.mk a, String.mk b] := by
  cases hc : cutColon s.data with
  | none => exact absurd h ((cutColon_eq_none_iff s.data).mp hc)
  | some p => exact ⟨p.1, p.2, rfl, by simp [splitN2, hc]⟩

/-! ## Endpoint extraction -/

theorem fetchLoop_eq (env : Env) (obj : GlobalDNS) (ingresses : List Ingress)
    (acc : List String) :
    fetchLoop env obj ingresses acc =
      acc ++ (ingresses.filter (annotatedFor env obj)).flatMap
        (fun ing => env.gatherIngressEndpoints ing.loadBalancer) := by
  induction ingresses generalizing acc with
  | nil => simp [fetchLoop]
  | cons ing rest ih =>
    cases ha : mapGet? ing.annotations env.annotationGlobalDNS with
    | none => simp [fetchLoop, ha, ih, annotatedFor, List.filter_cons]
    | some gdns =>
      by_cases hg : gdns = obj.spec.fqdn
      · simp [fetchLoop, ha, ih, annotatedFor, List.filter_cons, hg]
      · simp [fetchLoop, ha, ih, annotatedFor, List.filter_cons, hg]

theorem fetch_eq (env : Env) (obj : GlobalDNS) (ingresses : List Ingress) :
    fetchGlobalDNSEndpointsForIngresses env ingresses obj =
      ((ingresses.filter (annotatedFor env obj)).flatMap
        (fun ing => env.gatherIngressEndpoints ing.loadBalancer), none) := by
  cases ingresses with
  | nil => simp [fetchGlobalDNSEndpointsForIngresses]
  | cons ing rest =>
    simp [fetchGlobalDNSEndpointsForIngresses, fetchLoop_eq]

theorem fetch_congr (env : Env) (obj obj' : GlobalDNS) (h : obj'.spec.fqdn = obj.spec.fqdn)
    (ingresses : List Ingress) :
    fetchGlobalDNSEndpointsForIngresses env ingresses obj' =
      fetchGlobalDNSEndpointsForIngresses env ingresses obj := by
  have : annotatedFor env obj' = annotatedFor env obj := by
    funext ing
    simp [annotatedFor, h]
  rw [fetch_eq, fetch_eq, this]

/-- C7. `fetchGlobalDNSEndpointsForIngresses` never fails, and its result is
the in-order concatenation of `gatherIngressEndpoints` over exactly the
ingresses annotated with the record's FQDN: unannotated ingresses and
ingresses annotated with another value contribute nothing, nothing is
deduplicated, and an empty list or a list without a match gives the empty
sequence. -/
theorem fetch_is_concat_over_annotated (env : Env) (obj : GlobalDNS)
    (ingresses : List Ingress) :
    (fetchGlobalDNSEndpointsForIngresses env ingresses obj).2 = none ∧
    (fetchGlobalDNSEndpointsForIngresses env ingresses obj).1 =
      (ingresses.filter (fun ing =>
          decide (mapGet? ing.annotations env.annotationGlobalDNS = some obj.spec.fqdn))).flatMap
        (fun ing => env.gatherIngressEndpoints ing.loadBalancer) ∧
    ((∀ ing ∈ ingresses,
        mapGet? ing.annotations env.annotationGlobalDNS ≠ some obj.spec.fqdn) →
      (fetchGlobalDNSEndpointsForIngresses env ingresses obj).1 = []) := by
  refine ⟨by rw [fetch_eq], by rw [fetch_eq]; rfl, ?_⟩
  intro h
  rw [fetch_eq]
  have : ingresses.filter (annotatedFor env obj) = [] := by
    rw [List.filter_eq_nil_iff]
    intro ing hing
    simpa [annotatedFor] using h ing hing
  simp [this]

/-- Witness of C7: of four ingresses, two are annotated for the record's
FQDN (and report the same address), one is annotated for another name and
one carries no annotation. -/
theorem fetch_is_concat_over_annotated_witness :
    (fetchGlobalDNSEndpointsForIngresses scenarioEnv
        [annotatedIngress "a.example.com" "10.0.0.1",
          annotatedIngress "b.example.com" "10.0.9.9", ⟨[], [⟨"10.0.3.3", ""⟩]⟩,
          annotatedIngress "a.example.com" "10.0.0.1"]
        (recordFor "" ["c1:p1"] [])).1 = ["10.0.0.1", "10.0.0.1"] ∧
      (fetchGlobalDNSEndpointsForIngresses scenarioEnv
        [annotatedIngress "b.example.com" "10.0.9.9", ⟨[], [⟨"10.0.3.3", ""⟩]⟩]
        (recordFor "" ["c1:p1"] [])).1 = [] := by
  refine ⟨?_, (fetch_is_concat_over_annotated scenarioEnv (recordFor "" ["c1:p1"] [])
    [annotatedIngress "b.example.com" "10.0.9.9", ⟨[], [⟨"10.0.3.3", ""⟩]⟩]).2.2 (by decide)⟩
  rw [(fetch_is_concat_over_annotated scenarioEnv (recordFor "" ["c1:p1"] []) _).2.1]
  decide

/-! ## Scope resolution: one step of each loop -/

theorem targetsLoop_cons_colon (env : Env) (obj : GlobalDNS) (t : Target) (rest : List Target)
    (acc : List Ingress) (tr : List Event) (a b : List Char)
    (h : cutColon t.projectName.data = some (a, b)) :
    targetsLoop env obj (t :: rest) acc tr =
      if String.mk a ≠ env.clusterName then targetsLoop env obj rest acc tr
      else
        match env.ingressList t.appName with
        | .error e => ⟨[], some e, tr ++ [Event.ingressList t.appName]⟩
        | .ok ingresses =>
          targetsLoop env obj rest (acc ++ ingresses) (tr ++ [Event.ingressList t.appName]) := by
  simp [targetsLoop, splitN2, h]

theorem targetsLoop_cons_no_colon (env : Env) (obj : GlobalDNS) (t : Target)
    (rest : List Target) (acc : List Ingress) (tr : List Event)
    (h : cutColon t.projectName.data = none) :
    targetsLoop env obj (t :: rest) acc tr =
      ⟨[], some ("error in splitting project ID " ++ t.projectName), tr⟩ := by
  simp [targetsLoop, splitN2, h]

theorem projectsLoop_cons_colon (env : Env) (obj : GlobalDNS) (nss : List Namespace)
    (e : String) (rest : List String) (acc : List Ingress) (tr : List Event) (a b : List Char)
    (h : cutColon e.data = some (a, b)) :
    projectsLoop env obj nss (e :: rest) acc tr =
      if String.mk a ≠ env.clusterName then projectsLoop env obj nss rest acc tr
      else
        match listNamespacesLoop env (namespacesInProject env (String.mk b) nss []) acc tr with
        | (.error err, tr') => ⟨[], some err, tr'⟩
        | (.ok acc', tr') => projectsLoop env obj nss rest acc' tr' := by
  simp [projectsLoop, splitN2, h]

theorem projectsLoop_cons_no_colon (env : Env) (obj : GlobalDNS) (nss : List Namespace)
    (e : String) (rest : List String) (acc : List Ingress) (tr : List Event)
    (h : cutColon e.data = none) :
    projectsLoop env obj nss (e :: rest) acc tr =
      ⟨[], some ("UserGlobalDNSController: Error in splitting project Name " ++ e), tr⟩ := by
  simp [projectsLoop, splitN2, h]

theorem ofThisCluster_of_cut (env : Env) (s : String) (a b : List Char)
    (h : cutColon s.data = some (a, b)) :
    ofThisCluster env s = decide (String.mk a = env.clusterName) := by
  simp [ofThisCluster, clusterPart, h]

theorem namespacesInProject_eq (env : Env) (projectID : String) (nss : List Namespace)
    (acc : List String) :
    namespacesInProject env projectID nss acc = acc ++ namespacesLabelled env projectID nss := by
  induction nss generalizing acc with
  | nil => simp [namespacesInProject, namespacesLabelled]
  | cons ns rest ih =>
    by_cases hm : env.equalFold projectID (mapGetStr ns.labels env.projectSelectorLabel) = true
    · simp [namespacesInProject, hm, ih, namespacesLabelled, List.filter_cons]
    · simp [namespacesInProject, hm, ih, namespacesLabelled, List.filter_cons]

/-! ## Scope resolution: which calls are made -/

theorem listNamespacesLoop_trace_mem (env : Env) (nss : List String) (acc : List Ingress)
    (tr : List Event) (ev : Event) (h : ev ∈ (listNamespacesLoop env nss acc tr).2) :
    ev ∈ tr ∨ ∃ ns ∈ nss, ev = Event.ingressList ns := by
  induction nss generalizing acc tr with
  | nil => exact Or.inl (by simpa [listNamespacesLoop] using h)
  | cons ns rest ih =>
    cases hl : env.ingressList ns with
    | error e =>
      simp only [listNamespacesLoop, hl, List.mem_append, List.mem_singleton] at h
      rcases h with h | h
      · exact Or.inl h
      · exact Or.inr ⟨ns, by simp, h⟩
    | ok l =>
      simp only [listNamespacesLoop, hl] at h
      rcases ih _ _ h with h | ⟨n, hn, hev⟩
      · simp only [List.mem_append, List.mem_singleton] at h
        rcases h with h | h
        · exact Or.inl h
        · exact Or.inr ⟨ns, by simp, h⟩
      · exact Or.inr ⟨n, by simp [hn], hev⟩

theorem targetsLoop_trace_mem (env : Env) (obj : GlobalDNS) (ts : List Target)
    (acc : List Ingress) (tr : List Event) (ev : Event)
    (h : ev ∈ (targetsLoop env obj ts acc tr).trace) :
    ev ∈ tr ∨ ∃ t ∈ ts, ofThisCluster env t.projectName = true ∧
      ev = Event.ingressList t.appName := by
  induction ts generalizing acc tr with
  | nil => exact Or.inl (by simpa [targetsLoop] using h)
  | cons t rest ih =>
    cases hc : cutColon t.projectName.data with
    | none =>
      rw [targetsLoop_cons_no_colon env obj t rest acc tr hc] at h
      exact Or.inl h
    | some p =>
      obtain ⟨a, b⟩ := p
      rw [targetsLoop_cons_colon env obj t rest acc tr a b hc] at h
      have hown := ofThisCluster_of_cut env t.projectName a b hc
      by_cases hcl : String.mk a = env.clusterName
      · have hown' : ofThisCluster env t.projectName = true := by simp [hown, hcl]
        simp only [hcl, ne_eq, not_true_eq_false, if_false] at h
        cases hl : env.ingressList t.appName with
        | error e =>
          simp only [hl, List.mem_append, List.mem_singleton] at h
          rcases h with h | h
          · exact Or.inl h
          · exact Or.inr ⟨t, by simp, hown', h⟩
        | ok l =>
          simp only [hl] at h
          rcases ih _ _ h with h | ⟨t', ht', ho, hev⟩
          · simp only [List.mem_append, List.mem_singleton] at h
            rcases h with h | h
            · exact Or.inl h
            · exact Or.inr ⟨t, by simp, hown', h⟩
          · exact Or.inr ⟨t', by simp [ht'], ho, hev⟩
      · simp only [hcl, ne_eq, not_false_eq_true, if_true] at h
        rcases ih _ _ h with h | ⟨t', ht', ho, hev⟩
        · exact Or.inl h
        · exact Or.inr ⟨t', by simp [ht'], ho, hev⟩

theorem projectsLoop_trace_mem (env : Env) (obj : GlobalDNS) (nss : List Namespace)
    (refs : List String) (acc : List Ingress) (tr : List Event) (ev : Event)
    (h : ev ∈ (projectsLoop env obj nss refs acc tr).trace) :
    ev ∈ tr ∨ ∃ e ∈ refs, ofThisCluster env e = true ∧
      ∃ ns ∈ scopedNamespaces env [e] nss, ev = Event.ingressList ns := by
  induction refs generalizing acc tr with
  | nil => exact Or.inl (by simpa [projectsLoop] using h)
  | cons e rest ih =>
    cases hc : cutColon e.data with
    | none =>
      rw [projectsLoop_cons_no_colon env obj nss e rest acc tr hc] at h
      exact Or.inl h
    | some p =>
      obtain ⟨a, b⟩ := p
      rw [projectsLoop_cons_colon env obj nss e rest acc tr a b hc] at h
      have hown := ofThisCluster_of_cut env e a b hc
      by_cases hcl : String.mk a = env.clusterName
      · have hown' : ofThisCluster env e = true := by simp [hown, hcl]
        have hscope : scopedNamespaces env [e] nss = namespacesLabelled env (String.mk b) nss := by
          simp [scopedNamespaces, hc, hcl]
        simp only [hcl, ne_eq, not_true_eq_false, if_false, namespacesInProject_eq,
          List.nil_append] at h
        have hinner := listNamespacesLoop_trace_mem env
          (namespacesLabelled env (String.mk b) nss) acc tr
        cases hl : listNamespacesLoop env (namespacesLabelled env (String.mk b) nss) acc tr with
        | mk r tr' =>
          rw [hl] at h hinner
          have key : ∀ ev', ev' ∈ tr' → ev' ∈ tr ∨ ∃ e' ∈ e :: rest,
              ofThisCluster env e' = true ∧
                ∃ ns ∈ scopedNamespaces env [e'] nss, ev' = Event.ingressList ns := by
            intro ev' hev'
            rcases hinner ev' hev' with h1 | ⟨ns, hns, hev⟩
            · exact Or.inl h1
            · exact Or.inr ⟨e, by simp, hown', ns, by rw [hscope]; exact hns, hev⟩
          cases r with
          | error err => exact key ev h
          | ok acc' =>
            rcases ih _ _ h with h1 | ⟨e', he', ho, hrest⟩
            · exact key ev h1
            · exact Or.inr ⟨e', by simp [he'], ho, hrest⟩
      · simp only [hcl, ne_eq, not_false_eq_true, if_true] at h
        rcases ih _ _ h with h | ⟨e', he', ho, hrest⟩
        · exact Or.inl h
        · exact Or.inr ⟨e', by simp [he'], ho, hrest⟩

theorem reconcileMultiClusterApp_trace_mem (env : Env) (obj : GlobalDNS) (ev : Event)
    (h : ev ∈ (reconcileMultiClusterApp env obj).trace) :
    (∃ ns name, ev = Event.multiclusterappGet ns name) ∨ ∃ ns, ev = Event.ingressList ns := by
  unfold reconcileMultiClusterApp at h
  cases hn : env.getMultiClusterAppName obj.spec.multiClusterAppName with
  | error e => simp [hn] at h
  | ok name =>
    cases hg : env.multiclusterappGet env.globalNamespace name with
    | error e =>
      simp only [hn, hg, List.mem_singleton] at h
      exact Or.inl ⟨_, _, h⟩
    | ok mcapp =>
      simp only [hn, hg] at h
      rcases targetsLoop_trace_mem env obj _ _ _ ev h with h | ⟨t, _, _, hev⟩
      · exact Or.inl ⟨_, _, by simpa using h⟩
      · exact Or.inr ⟨_, hev⟩

theorem reconcileProjects_trace_mem (env : Env) (obj : GlobalDNS) (ev : Event)
    (h : ev ∈ (reconcileProjects env obj).trace) :
    ev = Event.namespaceList ∨ ∃ ns, ev = Event.ingressList ns := by
  unfold reconcileProjects at h
  cases hn : env.namespaceList with
  | error e =>
    simp only [hn, List.mem_singleton] at h
    exact Or.inl h
  | ok nss =>
    simp only [hn] at h
    rcases projectsLoop_trace_mem env obj nss _ _ _ ev h with h | ⟨_, _, _, ns, _, hev⟩
    · exact Or.inl (by simpa using h)
    · exact Or.inr ⟨ns, hev⟩

/-! ## Scope resolution: failures -/

theorem targetsLoop_err_of_no_colon (env : Env) (obj : GlobalDNS) (ts : List Target)
    (acc : List Ingress) (tr : List Event)
    (h : ∃ t ∈ ts, ':' ∉ t.projectName.data) :
    ∃ err, (targetsLoop env obj ts acc tr).err = some err := by
  induction ts generalizing acc tr with
  | nil => simp at h
  | cons t rest ih =>
    cases hc : cutColon t.projectName.data with
    | none =>
      rw [targetsLoop_cons_no_colon env obj t rest acc tr hc]
      exact ⟨_, rfl⟩
    | some p =>
      obtain ⟨a, b⟩ := p
      have hrest : ∃ t' ∈ rest, ':' ∉ t'.projectName.data := by
        obtain ⟨t', ht', hbad⟩ := h
        rcases List.mem_cons.mp ht' with rfl | ht'
        · rw [(cutColon_eq_none_iff _).mpr hbad] at hc
          cases hc
        · exact ⟨t', ht', hbad⟩
      rw [targetsLoop_cons_colon env obj t rest acc tr a b hc]
      by_cases hcl : String.mk a = env.clusterName
      · simp only [hcl, ne_eq, not_true_eq_false, if_false]
        cases hl : env.ingressList t.appName with
        | error e => exact ⟨e, rfl⟩
        | ok l => exact ih _ _ hrest
      · simp only [hcl, ne_eq, not_false_eq_true, if_true]
        exact ih _ _ hrest

theorem projectsLoop_err_of_no_colon (env : Env) (obj : GlobalDNS) (nss : List Namespace)
    (refs : List String) (acc : List Ingress) (tr : List Event)
    (h : ∃ e ∈ refs, ':' ∉ e.data) :
    ∃ err, (projectsLoop env obj nss refs acc tr).err = some err := by
  induction refs generalizing acc tr with
  | nil => simp at h
  | cons e rest ih =>
    cases hc : cutColon e.data with
    | none =>
      rw [projectsLoop_cons_no_colon env obj nss e rest acc tr hc]
      exact ⟨_, rfl⟩
    | some p =>
      obtain ⟨a, b⟩ := p
      have hrest : ∃ e' ∈ rest, ':' ∉ e'.data := by
        obtain ⟨e', he', hbad⟩ := h
        rcases List.mem_cons.mp he' with rfl | he'
        · rw [(cutColon_eq_none_iff _).mpr hbad] at hc
          cases hc
        · exact ⟨e', he', hbad⟩
      rw [projectsLoop_cons_colon env obj nss e rest acc tr a b hc]
      by_cases hcl : String.mk a = env.clusterName
      · simp only [hcl, ne_eq, not_true_eq_false, if_false]
        cases hl : listNamespacesLoop env (namespacesInProject env (String.mk b) nss []) acc tr with
        | mk r tr' =>
          cases r with
          | error err => exact ⟨err, rfl⟩
          | ok acc' => exact ih _ _ hrest
      · simp only [hcl, ne_eq, not_false_eq_true, if_true]
        exact ih _ _ hrest

theorem reconcileProjects_err_of_no_colon (env : Env) (obj : GlobalDNS)
    (h : ∃ e ∈ obj.spec.projectNames, ':' ∉ e.data) :
    ∃ err, (reconcileProjects env obj).err = some err := by
  unfold reconcileProjects
  cases hn : env.namespaceList with
  | error e => exact ⟨_, rfl⟩
  | ok nss => exact projectsLoop_err_of_no_colon env obj nss _ _ _ h

theorem reconcileMultiClusterApp_err_of_no_colon (env : Env) (obj : GlobalDNS)
    (name : String) (mcapp : MultiClusterApp)
    (hname : env.getMultiClusterAppName obj.spec.multiClusterAppName = .ok name)
    (hget : env.multiclusterappGet env.globalNamespace name = .ok mcapp)
    (h : ∃ t ∈ mcapp.targets, ':' ∉ t.projectName.data) :
    ∃ err, (reconcileMultiClusterApp env obj).err = some err := by
  unfold reconcileMultiClusterApp
  simp only [hname, hget]
  exact targetsLoop_err_of_no_colon env obj _ _ _ h

theorem listNamespacesLoop_err_of_failure (env : Env) (nss : List String)
    (acc : List Ingress) (tr : List Event)
    (h : ∃ ns ∈ nss, ∃ e, env.ingressList ns = .error e) :
    ∃ err, (listNamespacesLoop env nss acc tr).1 = .error err := by
  induction nss generalizing acc tr with
  | nil => simp at h
  | cons ns rest ih =>
    cases hl : env.ingressList ns with
    | error e => exact ⟨e, by simp [listNamespacesLoop, hl]⟩
    | ok l =>
      have hrest : ∃ n ∈ rest, ∃ e, env.ingressList n = .error e := by
        obtain ⟨n, hn, e, he⟩ := h
        rcases List.mem_cons.mp hn with rfl | hn
        · rw [hl] at he
          cases he
        · exact ⟨n, hn, e, he⟩
      simpa [listNamespacesLoop, hl] using ih _ _ hrest

theorem targetsLoop_err_of_list_failure (env : Env) (obj : GlobalDNS) (ts : List Target)
    (acc : List Ingress) (tr : List Event)
    (h : ∃ t ∈ ts, ofThisCluster env t.projectName = true ∧
      ∃ e, env.ingressList t.appName = .error e) :
    ∃ err, (targetsLoop env obj ts acc tr).err = some err := by
  induction ts generalizing acc tr with
  | nil => simp at h
  | cons t rest ih =>
    cases hc : cutColon t.projectName.data with
    | none =>
      rw [targetsLoop_cons_no_colon env obj t rest acc tr hc]
      exact ⟨_, rfl⟩
    | some p =>
      obtain ⟨a, b⟩ := p
      have hown := ofThisCluster_of_cut env t.projectName a b hc
      rw [targetsLoop_cons_colon env obj t rest acc tr a b hc]
      by_cases hcl : String.mk a = env.clusterName
      · simp only [hcl, ne_eq, not_true_eq_false, if_false]
        cases hl : env.ingressList t.appName with
        | error e => exact ⟨e, rfl⟩
        | ok l =>
          refine ih _ _ ?_
          obtain ⟨t', ht', ho, e, he⟩ := h
          rcases List.mem_cons.mp ht' with rfl | ht'
          · rw [hl] at he
            cases he
          · exact ⟨t', ht', ho, e, he⟩
      · simp only [hcl, ne_eq, not_false_eq_true, if_true]
        refine ih _ _ ?_
        obtain ⟨t', ht', ho, e, he⟩ := h
        rcases List.mem_cons.mp ht' with rfl | ht'
        · simp [hown, hcl] at ho
        · exact ⟨t', ht', ho, e, he⟩

theorem projectsLoop_err_of_list_failure (env : Env) (obj : GlobalDNS) (nss : List Namespace)
    (refs : List String) (acc : List Ingress) (tr : List Event)
    (h : ∃ ns ∈ scopedNamespaces env refs nss, ∃ e, env.ingressList ns = .error e) :
    ∃ err, (projectsLoop env obj nss refs acc tr).err = some err := by
  induction refs generalizing acc tr with
  | nil => simp [scopedNamespaces] at h
  | cons e rest ih =>
    cases hc : cutColon e.data with
    | none =>
      rw [projectsLoop_cons_no_colon env obj nss e rest acc tr hc]
      exact ⟨_, rfl⟩
    | some p =>
      obtain ⟨a, b⟩ := p
      rw [projectsLoop_cons_colon env obj nss e rest acc tr a b hc]
      obtain ⟨ns, hns, e', he'⟩ := h
      have hsplit : scopedNamespaces env (e :: rest) nss =
          scopedNamespaces env [e] nss ++ scopedNamespaces env rest nss := by
        simp [scopedNamespaces]
      rw [hsplit] at hns
      by_cases hcl : String.mk a = env.clusterName
      · have hscope : scopedNamespaces env [e] nss = namespacesLabelled env (String.mk b) nss := by
          simp [scopedNamespaces, hc, hcl]
        simp only [hcl, ne_eq, not_true_eq_false, if_false, namespacesInProject_eq,
          List.nil_append]
        cases hl : listNamespacesLoop env (namespacesLabelled env (String.mk b) nss) acc tr with
        | mk r tr' =>
          cases r with
          | error err => exact ⟨err, rfl⟩
          | ok acc' =>
            refine ih _ _ ?_
            rcases List.mem_append.mp hns with hin | hin
            · rw [hscope] at hin
              obtain ⟨err, herr⟩ := listNamespacesLoop_err_of_failure env _ acc tr
                ⟨ns, hin, e', he'⟩
              rw [hl] at herr
              cases herr
            · exact ⟨ns, hin, e', he'⟩
      · have hscope : scopedNamespaces env [e] nss = [] := by
          simp [scopedNamespaces, hc, hcl]
        simp only [hcl, ne_eq, not_false_eq_true, if_true]
        refine ih _ _ ?_
        rcases List.mem_append.mp hns with hin | hin
        · simp [hscope] at hin
        · exact ⟨ns, hin, e', he'⟩

/-- Each failure named by the specification makes the scope resolution of
its mode return an error: a name that does not parse, a failed lookup, a
failed listing of an ingress namespace in scope or a target without `':'`
in multi-cluster-app mode; a failed namespace listing, a failed listing of
an ingress namespace in scope or an entry without `':'` in project-list
mode. -/
theorem resolution_fails_on_each_cause (env : Env) (obj : GlobalDNS) :
    ((∃ e, env.getMultiClusterAppName obj.spec.multiClusterAppName = .error e) →
      ∃ err, (reconcileMultiClusterApp env obj).err = some err) ∧
    (∀ name, env.getMultiClusterAppName obj.spec.multiClusterAppName = .ok name →
      (∃ e, env.multiclusterappGet env.globalNamespace name = .error e) →
      ∃ err, (reconcileMultiClusterApp env obj).err = some err) ∧
    (∀ name mcapp, env.getMultiClusterAppName obj.spec.multiClusterAppName = .ok name →
      env.multiclusterappGet env.globalNamespace name = .ok mcapp →
      ((∃ t ∈ mcapp.targets, ':' ∉ t.projectName.data) ∨
        ∃ t ∈ mcapp.targets, ofThisCluster env t.projectName = true ∧
          ∃ e, env.ingressList t.appName = .error e) →
      ∃ err, (reconcileMultiClusterApp env obj).err = some err) ∧
    ((∃ e, env.namespaceList = .error e) →
      ∃ err, (reconcileProjects env obj).err = some err) ∧
    (∀ nss, env.namespaceList = .ok nss →
      ((∃ e ∈ obj.spec.projectNames, ':' ∉ e.data) ∨
        ∃ ns ∈ scopedNamespaces env obj.spec.projectNames nss,
          ∃ e, env.ingressList ns = .error e) →
      ∃ err, (reconcileProjects env obj).err = some err) := by
  refine ⟨?_, ?_, ?_, ?_, ?_⟩
  · rintro ⟨e, he⟩
    exact ⟨e, by simp [reconcileMultiClusterApp, he]⟩
  · rintro name hname ⟨e, he⟩
    exact ⟨e, by simp [reconcileMultiClusterApp, hname, he]⟩
  · intro name mcapp hname hget h
    unfold reconcileMultiClusterApp
    simp only [hname, hget]
    rcases h with h | h
    · exact targetsLoop_err_of_no_colon env obj _ _ _ h
    · exact targetsLoop_err_of_list_failure env obj _ _ _ h
  · rintro ⟨e, he⟩
    exact ⟨"UserGlobalDNSController: Error listing cluster namespaces",
      by simp [reconcileProjects, he]⟩
  · intro nss hns h
    unfold reconcileProjects
    simp only [hns]
    rcases h with h | h
    · exact projectsLoop_err_of_no_colon env obj nss _ _ _ h
    · exact projectsLoop_err_of_list_failure env obj nss _ _ _ h

/-! ## Scope resolution: dependence on the record -/

theorem targetsLoop_congr (env : Env) (obj obj' : GlobalDNS)
    (h : obj'.spec.fqdn = obj.spec.fqdn)
    (ts : List Target) (acc : List Ingress) (tr : List Event) :
    targetsLoop env obj' ts acc tr = targetsLoop env obj ts acc tr := by
  induction ts generalizing acc tr with
  | nil => simp [targetsLoop, fetch_congr env obj obj' h]
  | cons t rest ih =>
    cases hc : cutColon t.projectName.data with
    | none =>
      rw [targetsLoop_cons_no_colon env obj t rest acc tr hc,
        targetsLoop_cons_no_colon env obj' t rest acc tr hc]
    | some p =>
      obtain ⟨a, b⟩ := p
      rw [targetsLoop_cons_colon env obj t rest acc tr a b hc,
        targetsLoop_cons_colon env obj' t rest acc tr a b hc]
      simp only [ih]

theorem projectsLoop_congr (env : Env) (obj obj' : GlobalDNS)
    (h : obj'.spec.fqdn = obj.spec.fqdn)
    (nss : List Namespace) (refs : List String) (acc : List Ingress) (tr : List Event) :
    projectsLoop env obj' nss refs acc tr = projectsLoop env obj nss refs acc tr := by
  induction refs generalizing acc tr with
  | nil => simp [projectsLoop, fetch_congr env obj obj' h]
  | cons e rest ih =>
    cases hc : cutColon e.data with
    | none =>
      rw [projectsLoop_cons_no_colon env obj nss e rest acc tr hc,
        projectsLoop_cons_no_colon env obj' nss e rest acc tr hc]
    | some p =>
      obtain ⟨a, b⟩ := p
      rw [projectsLoop_cons_colon env obj nss e rest acc tr a b hc,
        projectsLoop_cons_colon env obj' nss e rest acc tr a b hc]
      simp only [ih]

theorem reconcileMultiClusterApp_congr (env : Env) (obj obj' : GlobalDNS)
    (h : obj'.spec = obj.spec) :
    reconcileMultiClusterApp env obj' = reconcileMultiClusterApp env obj := by
  unfold reconcileMultiClusterApp
  simp only [h, targetsLoop_congr env obj obj' (by rw [h])]

theorem reconcileProjects_congr (env : Env) (obj obj' : GlobalDNS)
    (h : obj'.spec = obj.spec) :
    reconcileProjects env obj' = reconcileProjects env obj := by
  unfold reconcileProjects
  simp only [h, projectsLoop_congr env obj obj' (by rw [h])]

/-! ## Diff and commit -/

theorem initialise_eq (g : GlobalDNS) :
    (if g.status.clusterEndpoints.length = 0 then
      { g with status := { g.status with clusterEndpoints := [] } }
    else g) = g := by
  obtain ⟨d, sp, ⟨e, ce⟩⟩ := g
  cases ce <;> simp

theorem refresh_of_same (env : Env) (g : GlobalDNS) (eps : List String)
    (h : env.ifEndpointsDiffer (storedEndpoints env g) eps = false) :
    refreshGlobalDNSEndpoints env g eps = ⟨⟨none, none, []⟩, g⟩ := by
  unfold refreshGlobalDNSEndpoints
  simp only [initialise_eq]
  unfold storedEndpoints at h
  simp [h]

theorem refresh_of_differ (env : Env) (g : GlobalDNS) (eps : List String)
    (h : env.ifEndpointsDiffer (storedEndpoints env g) eps = true) :
    (refreshGlobalDNSEndpoints env g eps).res.trace =
        [Event.reconcileEndpoints (withClusterEndpoints env g eps),
          Event.storeUpdate (env.reconcileGlobalDNSEndpoints (withClusterEndpoints env g eps))] ∧
      (refreshGlobalDNSEndpoints env g eps).res.val =
        (env.storeUpdate (env.reconcileGlobalDNSEndpoints (withClusterEndpoints env g eps))).1 ∧
      (refreshGlobalDNSEndpoints env g eps).input = g := by
  unfold refreshGlobalDNSEndpoints
  simp only [initialise_eq]
  unfold storedEndpoints at h
  simp only [h, if_true]
  unfold withClusterEndpoints
  cases hu : env.storeUpdate (env.reconcileGlobalDNSEndpoints
    { g with status := { g.status with
        clusterEndpoints := mapSet g.status.clusterEndpoints env.clusterName eps } }) with
  | mk updated e =>
    cases e <;> simp

/-- C1. When the comparison of the sequence stored for this cluster with the
computed sequence reports no difference, `refreshGlobalDNSEndpoints` returns
`(nil, nil)`, makes no call at all (neither the store `Update` nor
`reconcileGlobalDNSEndpoints`), and leaves the input record as it was. -/
theorem refresh_noop_when_no_difference (env : Env) (globalDNS : GlobalDNS)
    (ingressEndpointsForCluster : List String)
    (h : env.ifEndpointsDiffer
        (mapGetSlice globalDNS.status.clusterEndpoints env.clusterName)
        ingressEndpointsForCluster = false) :
    (refreshGlobalDNSEndpoints env globalDNS ingressEndpointsForCluster).res.val = none ∧
    (refreshGlobalDNSEndpoints env globalDNS ingressEndpointsForCluster).res.err = none ∧
    (refreshGlobalDNSEndpoints env globalDNS ingressEndpointsForCluster).res.trace = [] ∧
    (refreshGlobalDNSEndpoints env globalDNS ingressEndpointsForCluster).input = globalDNS := by
  rw [refresh_of_same env globalDNS ingressEndpointsForCluster h]
  exact ⟨rfl, rfl, rfl, rfl⟩

/-- Witness of C1: the stored sequence is a permutation of the computed one. -/
theorem refresh_noop_when_no_difference_witness :
    scenarioEnv.ifEndpointsDiffer
        (mapGetSlice (recordFor "" ["c1:p1"]
          [("c2", ["10.2.0.1"]), ("c1", ["10.0.0.2", "10.0.0.1"])]).status.clusterEndpoints
            scenarioEnv.clusterName)
        ["10.0.0.1", "10.0.0.2"] = false ∧
      (refreshGlobalDNSEndpoints scenarioEnv
        (recordFor "" ["c1:p1"] [("c2", ["10.2.0.1"]), ("c1", ["10.0.0.2", "10.0.0.1"])])
        ["10.0.0.1", "10.0.0.2"]).res.trace = [] :=
  ⟨by decide,
    (refresh_noop_when_no_difference scenarioEnv
      (recordFor "" ["c1:p1"] [("c2", ["10.2.0.1"]), ("c1", ["10.0.0.2", "10.0.0.1"])])
      ["10.0.0.1", "10.0.0.2"] (by decide)).2.2.1⟩

/-- C9. When a difference is detected and the merge step leaves the
per-cluster map as it finds it, exactly one record is handed to the store
`Update`; in it this cluster's entry is the newly computed sequence and every
other cluster's entry is, present or absent, that of the input record; the
input record is left as it was. This covers an input whose map is absent or
empty. -/
theorem refresh_commit_frame (env : Env) (globalDNS : GlobalDNS)
    (ingressEndpointsForCluster : List String)
    (hdiff : env.ifEndpointsDiffer
        (mapGetSlice globalDNS.status.clusterEndpoints env.clusterName)
        ingressEndpointsForCluster = true)
    (hmerge : ∀ r k, mapGet? (env.reconcileGlobalDNSEndpoints r).status.clusterEndpoints k =
        mapGet? r.status.clusterEndpoints k) :
    ∃ handed : GlobalDNS,
      (∀ r, Event.storeUpdate r ∈
          (refreshGlobalDNSEndpoints env globalDNS ingressEndpointsForCluster).res.trace ↔
        r = handed) ∧
      mapGet? handed.status.clusterEndpoints env.clusterName = some ingressEndpointsForCluster ∧
      (∀ k, k ≠ env.clusterName →
        mapGet? handed.status.clusterEndpoints k = mapGet? globalDNS.status.clusterEndpoints k) ∧
      (refreshGlobalDNSEndpoints env globalDNS ingressEndpointsForCluster).input = globalDNS := by
  obtain ⟨htr, _, hin⟩ := refresh_of_differ env globalDNS ingressEndpointsForCluster hdiff
  refine ⟨env.reconcileGlobalDNSEndpoints
    (withClusterEndpoints env globalDNS ingressEndpointsForCluster), ?_, ?_, ?_, hin⟩
  · intro r
    rw [htr]
    simp
  · rw [hmerge]
    exact mapGet?_mapSet_self _ _ _
  · intro k hk
    rw [hmerge]
    exact mapGet?_mapSet_ne _ _ _ _ hk

/-- Witness of C9: the input record has no per-cluster map yet. -/
theorem refresh_commit_frame_witness :
    ∃ handed : GlobalDNS,
      (∀ r, Event.storeUpdate r ∈
          (refreshGlobalDNSEndpoints scenarioEnv (recordFor "" ["c1:p1"] [])
            ["10.0.0.1"]).res.trace ↔ r = handed) ∧
      mapGet? handed.status.clusterEndpoints scenarioEnv.clusterName = some ["10.0.0.1"] ∧
      (∀ k, k ≠ scenarioEnv.clusterName →
        mapGet? handed.status.clusterEndpoints k =
          mapGet? (recordFor "" ["c1:p1"] []).status.clusterEndpoints k) ∧
      (refreshGlobalDNSEndpoints scenarioEnv (recordFor "" ["c1:p1"] [])
        ["10.0.0.1"]).input = recordFor "" ["c1:p1"] [] :=
  refresh_commit_frame scenarioEnv (recordFor "" ["c1:p1"] []) ["10.0.0.1"] (by decide)
    (fun _ _ => rfl)

/-! ## The entry point -/

theorem sync_of_live (env : Env) (obj : GlobalDNS) (hdel : obj.deletionTimestamp = none) :
    sync env (some obj) =
      match (targetEndpointsOf env obj).err with
      | some err => ⟨RuntimeObject.nil, some err, (targetEndpointsOf env obj).trace⟩
      | none =>
        ⟨RuntimeObject.ofGlobalDNS
            (refreshGlobalDNSEndpoints env obj (targetEndpointsOf env obj).val).res.val,
          (refreshGlobalDNSEndpoints env obj (targetEndpointsOf env obj).val).res.err,
          (targetEndpointsOf env obj).trace ++
            (refreshGlobalDNSEndpoints env obj (targetEndpointsOf env obj).val).res.trace⟩ := by
  simp only [sync, hdel, targetEndpointsOf]
  rfl

theorem targetEndpointsOf_quiet (env : Env) (obj : GlobalDNS) (r : GlobalDNS) :
    Event.storeUpdate r ∉ (targetEndpointsOf env obj).trace ∧
      Event.reconcileEndpoints r ∉ (targetEndpointsOf env obj).trace := by
  have key : ∀ ev ∈ (targetEndpointsOf env obj).trace,
      (∃ ns name, ev = Event.multiclusterappGet ns name) ∨ ev = Event.namespaceList ∨
        ∃ ns, ev = Event.ingressList ns := by
    intro ev hev
    unfold targetEndpointsOf at hev
    by_cases hm : obj.spec.multiClusterAppName = ""
    · by_cases hp : obj.spec.projectNames.length > 0
      · simp only [hm, ne_eq, not_true_eq_false, if_false, hp, if_true] at hev
        rcases reconcileProjects_trace_mem env obj ev hev with h | h
        · exact Or.inr (Or.inl h)
        · exact Or.inr (Or.inr h)
      · simp [hm, hp] at hev
    · simp only [hm, ne_eq, not_false_eq_true, if_true] at hev
      rcases reconcileMultiClusterApp_trace_mem env obj ev hev with h | h
      · exact Or.inl h
      · exact Or.inr (Or.inr h)
  constructor
  · intro h
    rcases key _ h with ⟨_, _, h⟩ | h | ⟨_, h⟩ <;> cases h
  · intro h
    rcases key _ h with ⟨_, _, h⟩ | h | ⟨_, h⟩ <;> cases h

theorem targetEndpointsOf_congr (env : Env) (obj obj' : GlobalDNS) (h : obj'.spec = obj.spec) :
    targetEndpointsOf env obj' = targetEndpointsOf env obj := by
  unfold targetEndpointsOf
  rw [reconcileMultiClusterApp_congr env obj obj' h, reconcileProjects_congr env obj obj' h, h]

theorem sync_of_resolution_error (env : Env) (obj : GlobalDNS) (err : Error)
    (hdel : obj.deletionTimestamp = none) (h : (targetEndpointsOf env obj).err = some err) :
    sync env (some obj) =
      ⟨RuntimeObject.nil, some err, (targetEndpointsOf env obj).trace⟩ := by
  rw [sync_of_live env obj hdel, h]

theorem sync_error_aborts_core (env : Env) (obj : GlobalDNS) (err : Error)
    (hdel : obj.deletionTimestamp = none) (h : (targetEndpointsOf env obj).err = some err) :
    (sync env (some obj)).val = RuntimeObject.nil ∧ (sync env (some obj)).err = some err ∧
      ∀ r, Event.storeUpdate r ∉ (sync env (some obj)).trace := by
  rw [sync_of_resolution_error env obj err hdel h]
  exact ⟨rfl, rfl, fun r => (targetEndpointsOf_quiet env obj r).1⟩

/-- C5. Whenever the scope resolution selected by the record's mode returns
an error, `sync` returns a nil record together with that error and invokes
neither the store `Update` nor the merge step, whatever the earlier targets
or projects had already yielded. -/
theorem sync_error_aborts_before_commit (env : Env) (obj : GlobalDNS) (err : Error)
    (hdel : obj.deletionTimestamp = none)
    (h : (obj.spec.multiClusterAppName ≠ "" ∧
          (reconcileMultiClusterApp env obj).err = some err) ∨
        (obj.spec.multiClusterAppName = "" ∧ obj.spec.projectNames.length > 0 ∧
          (reconcileProjects env obj).err = some err)) :
    (sync env (some obj)).val = RuntimeObject.nil ∧ (sync env (some obj)).err = some err ∧
      ∀ r, Event.storeUpdate r ∉ (sync env (some obj)).trace ∧
        Event.reconcileEndpoints r ∉ (sync env (some obj)).trace := by
  have herr : (targetEndpointsOf env obj).err = some err := by
    unfold targetEndpointsOf
    rcases h with ⟨hm, he⟩ | ⟨hm, hp, he⟩
    · simpa [hm] using he
    · simpa [hm, hp] using he
  rw [sync_of_resolution_error env obj err hdel herr]
  exact ⟨rfl, rfl, fun r => targetEndpointsOf_quiet env obj r⟩

/-- Witness of C5: the first target of `broken` yields an endpoint, the
second has no `':'`. -/
theorem sync_error_aborts_before_commit_witness :
    (reconcileMultiClusterApp scenarioEnv (recordFor "broken" [] [])).trace =
        [Event.multiclusterappGet "cattle-global-data" "broken", Event.ingressList "app1"] ∧
      (sync scenarioEnv (some (recordFor "broken" [] []))).val = RuntimeObject.nil ∧
      (sync scenarioEnv (some (recordFor "broken" [] []))).err =
        some "error in splitting project ID p2" ∧
      ∀ r, Event.storeUpdate r ∉ (sync scenarioEnv (some (recordFor "broken" [] []))).trace ∧
        Event.reconcileEndpoints r ∉
          (sync scenarioEnv (some (recordFor "broken" [] []))).trace :=
  ⟨by decide,
    sync_error_aborts_before_commit scenarioEnv (recordFor "broken" [] [])
      "error in splitting project ID p2" rfl (Or.inl ⟨by decide, by decide⟩)⟩


/-- C10. For an absent record and for a record whose deletion marker is set,
whatever its other fields, `sync` returns `(nil, nil)`, the nil interface
and the nil error, and calls no collaborator: no lookup, no listing, no merge, no store `Update`. -/
theorem sync_absent_or_deleted_noop (env : Env) (obj : Option GlobalDNS)
    (h : obj = none ∨ ∃ o, obj = some o ∧ o.deletionTimestamp ≠ none) :
    (sync env obj).val = RuntimeObject.nil ∧ (sync env obj).err = none ∧
      (sync env obj).trace = [] := by
  rcases h with rfl | ⟨o, rfl, hd⟩
  · exact ⟨rfl, rfl, rfl⟩
  · simp [sync, hd]

/-- Witness of C10: a deleted record that names a multi-cluster app and
holds stale endpoints. -/
theorem sync_absent_or_deleted_noop_witness :
    (sync scenarioEnv
        (some ⟨some 7, ⟨"a.example.com", "shop", ["c1:p1"]⟩,
          ⟨["10.0.0.9"], [("c1", ["10.0.0.9"])]⟩⟩)).val = RuntimeObject.nil ∧
      (sync scenarioEnv
        (some ⟨some 7, ⟨"a.example.com", "shop", ["c1:p1"]⟩,
          ⟨["10.0.0.9"], [("c1", ["10.0.0.9"])]⟩⟩)).err = none ∧
      (sync scenarioEnv
        (some ⟨some 7, ⟨"a.example.com", "shop", ["c1:p1"]⟩,
          ⟨["10.0.0.9"], [("c1", ["10.0.0.9"])]⟩⟩)).trace = [] :=
  sync_absent_or_deleted_noop scenarioEnv _ (Or.inr ⟨_, rfl, by decide⟩)

/-! ## Records without a resolution mode -/

/-- C3, counterexample. A live record with neither mode field set that
still stores `10.0.0.9` for this cluster: `sync` hands the store a record in
which this cluster's sequence is empty. -/
theorem modeless_record_clears_stored :
    (recordFor "" [] [("c1", ["10.0.0.9"])]).deletionTimestamp = none ∧
      (recordFor "" [] [("c1", ["10.0.0.9"])]).spec.multiClusterAppName = "" ∧
      (recordFor "" [] [("c1", ["10.0.0.9"])]).spec.projectNames = [] ∧
      storedEndpoints scenarioEnv (recordFor "" [] [("c1", ["10.0.0.9"])]) = ["10.0.0.9"] ∧
      ∃ r, Event.storeUpdate r ∈
          (sync scenarioEnv (some (recordFor "" [] [("c1", ["10.0.0.9"])]))).trace ∧
        storedEndpoints scenarioEnv r = [] :=
  ⟨rfl, rfl, rfl, by decide,
    reconcileGlobalDNSEndpointsSpec
      (withClusterEndpoints scenarioEnv (recordFor "" [] [("c1", ["10.0.0.9"])]) []),
    by decide, by decide⟩

/-- C3, amended. For a live record with neither mode field set, `sync`
makes no lookup and no listing and compares the stored sequence of this
cluster with the empty sequence. When that comparison reports no
difference, `sync` calls nothing (no store `Update`, so the stored sequence
stays as it was) and its error is nil. When it reports a difference, `sync`
calls the merge step once, on a copy of the record whose entry for this
cluster is the empty sequence, and then the store `Update` once, on the
merge step's result; in that result the entry for this cluster is still
empty whenever the merge step leaves this cluster's entry as it finds it. -/
theorem sync_without_mode (env : Env) (obj : GlobalDNS)
    (hdel : obj.deletionTimestamp = none)
    (hm : obj.spec.multiClusterAppName = "") (hp : obj.spec.projectNames = []) :
    (env.ifEndpointsDiffer (storedEndpoints env obj) [] = false →
      (sync env (some obj)).err = none ∧ (sync env (some obj)).trace = []) ∧
    (env.ifEndpointsDiffer (storedEndpoints env obj) [] = true →
      (sync env (some obj)).trace =
        [Event.reconcileEndpoints (withClusterEndpoints env obj []),
          Event.storeUpdate (env.reconcileGlobalDNSEndpoints (withClusterEndpoints env obj []))] ∧
      storedEndpoints env (withClusterEndpoints env obj []) = [] ∧
      ((∀ r, mapGet? (env.reconcileGlobalDNSEndpoints r).status.clusterEndpoints
            env.clusterName = mapGet? r.status.clusterEndpoints env.clusterName) →
        storedEndpoints env
          (env.reconcileGlobalDNSEndpoints (withClusterEndpoints env obj [])) = [])) := by
  have ht : targetEndpointsOf env obj = ⟨[], none, []⟩ := by
    simp [targetEndpointsOf, hm, hp]
  have hset : storedEndpoints env (withClusterEndpoints env obj []) = [] := by
    simp [storedEndpoints, withClusterEndpoints, mapGetSlice, mapGet?_mapSet_self]
  rw [sync_of_live env obj hdel, ht]
  constructor
  · intro h
    rw [refresh_of_same env obj [] h]
    exact ⟨rfl, rfl⟩
  · intro h
    obtain ⟨htr, _, _⟩ := refresh_of_differ env obj [] h
    refine ⟨by simpa using htr, hset, fun hmerge => ?_⟩
    unfold storedEndpoints mapGetSlice at hset ⊢
    rw [hmerge]
    exact hset

/-- Witness of C3 as amended: first a record that stores nothing for this
cluster (another cluster's entry is present), then one that stores
`10.0.0.9` for it. -/
theorem sync_without_mode_witness :
    scenarioEnv.ifEndpointsDiffer
        (storedEndpoints scenarioEnv (recordFor "" [] [("c2", ["10.2.0.1"])])) [] = false ∧
      (sync scenarioEnv (some (recordFor "" [] [("c2", ["10.2.0.1"])]))).err = none ∧
      (sync scenarioEnv (some (recordFor "" [] [("c2", ["10.2.0.1"])]))).trace = [] ∧
      scenarioEnv.ifEndpointsDiffer
        (storedEndpoints scenarioEnv
          (recordFor "" [] [("c2", ["10.2.0.1"]), ("c1", ["10.0.0.9"])])) [] = true ∧
      storedEndpoints scenarioEnv
        (scenarioEnv.reconcileGlobalDNSEndpoints
          (withClusterEndpoints scenarioEnv
            (recordFor "" [] [("c2", ["10.2.0.1"]), ("c1", ["10.0.0.9"])]) [])) = [] :=
  ⟨by decide,
    ((sync_without_mode scenarioEnv (recordFor "" [] [("c2", ["10.2.0.1"])]) rfl rfl rfl).1
      (by decide)).1,
    ((sync_without_mode scenarioEnv (recordFor "" [] [("c2", ["10.2.0.1"])]) rfl rfl rfl).1
      (by decide)).2,
    by decide,
    ((sync_without_mode scenarioEnv
      (recordFor "" [] [("c2", ["10.2.0.1"]), ("c1", ["10.0.0.9"])]) rfl rfl rfl).2
        (by decide)).2.2 (fun _ => rfl)⟩

/-! ## Malformed composite identifiers -/

/-- C4, counterexample. The identifiers `c1:p1:x` (two colons) and `c1:`
(empty project part) are accepted by `reconcileProjects`; with `c1:` the
unlabelled namespace `default` is in scope and `sync` writes to the store. -/
theorem extra_colon_or_empty_part_accepted :
    splitN2 "c1:p1:x" = ["c1", "p1:x"] ∧
      (reconcileProjects scenarioEnv (recordFor "" ["c1:p1:x"] [])).err = none ∧
      splitN2 "c1:" = ["c1", ""] ∧
      (reconcileProjects scenarioEnv (recordFor "" ["c1:"] [])).err = none ∧
      (reconcileProjects scenarioEnv (recordFor "" ["c1:"] [])).val = ["10.0.5.5"] ∧
      (sync scenarioEnv (some (recordFor "" ["c1:"] []))).err = none ∧
      ∃ r, Event.storeUpdate r ∈ (sync scenarioEnv (some (recordFor "" ["c1:"] []))).trace :=
  ⟨by decide, by decide, by decide, by decide, by decide, by decide,
    reconcileGlobalDNSEndpointsSpec
      (withClusterEndpoints scenarioEnv (recordFor "" ["c1:"] []) ["10.0.5.5"]),
    by decide⟩

/-- C4, amended. When a `projectRefs` entry (project-list mode) or a target's
project name (multi-cluster-app mode, name parse and lookup succeeding)
contains no `':'`, the scope resolution of that mode returns an error, and
`sync` returns a nil record with an error and never invokes the store
`Update`. -/
theorem sync_fails_on_reference_without_colon (env : Env) (obj : GlobalDNS)
    (hdel : obj.deletionTimestamp = none)
    (h : (obj.spec.multiClusterAppName = "" ∧ ∃ e ∈ obj.spec.projectNames, ':' ∉ e.data) ∨
        (obj.spec.multiClusterAppName ≠ "" ∧ ∃ name mcapp,
          env.getMultiClusterAppName obj.spec.multiClusterAppName = .ok name ∧
          env.multiclusterappGet env.globalNamespace name = .ok mcapp ∧
          ∃ t ∈ mcapp.targets, ':' ∉ t.projectName.data)) :
    ((obj.spec.multiClusterAppName = "" → ∃ err, (reconcileProjects env obj).err = some err) ∧
      (obj.spec.multiClusterAppName ≠ "" →
        ∃ err, (reconcileMultiClusterApp env obj).err = some err)) ∧
    (sync env (some obj)).val = RuntimeObject.nil ∧
      (∃ err, (sync env (some obj)).err = some err) ∧
      ∀ r, Event.storeUpdate r ∉ (sync env (some obj)).trace := by
  rcases h with ⟨hm, hbad⟩ | ⟨hm, name, mcapp, hname, hget, hbad⟩
  · obtain ⟨err, herr⟩ := reconcileProjects_err_of_no_colon env obj hbad
    have hp : obj.spec.projectNames.length > 0 := by
      obtain ⟨e, he, _⟩ := hbad
      exact List.length_pos_of_mem he
    obtain ⟨h1, h2, h3⟩ := sync_error_aborts_core env obj err hdel
      (by simpa [targetEndpointsOf, hm, hp] using herr)
    exact ⟨⟨fun _ => ⟨err, herr⟩, fun hne => absurd hm hne⟩, h1, ⟨err, h2⟩, h3⟩
  · obtain ⟨err, herr⟩ :=
      reconcileMultiClusterApp_err_of_no_colon env obj name mcapp hname hget hbad
    obtain ⟨h1, h2, h3⟩ := sync_error_aborts_core env obj err hdel
      (by simpa [targetEndpointsOf, hm] using herr)
    exact ⟨⟨fun he => absurd he hm, fun _ => ⟨err, herr⟩⟩, h1, ⟨err, h2⟩, h3⟩

/-- Witness of C4 as amended: the entry `p1` has no `':'`. -/
theorem sync_fails_on_reference_without_colon_witness :
    (sync scenarioEnv (some (recordFor "" ["c1:p1", "p1"] []))).val = RuntimeObject.nil ∧
      (∃ err, (sync scenarioEnv (some (recordFor "" ["c1:p1", "p1"] []))).err = some err) ∧
      ∀ r, Event.storeUpdate r ∉
        (sync scenarioEnv (some (recordFor "" ["c1:p1", "p1"] []))).trace :=
  (sync_fails_on_reference_without_colon scenarioEnv (recordFor "" ["c1:p1", "p1"] []) rfl
    (Or.inl ⟨rfl, "p1", by decide, by decide⟩)).2

/-! ## Idempotence -/

/-- C2, counterexample. In the scenario of section 8 the first run commits:
it hands the store the record with `10.0.0.1` and `10.0.0.2` for `c1` and
gets it back without error. The second run, on that record, returns a
`runtime.Object` that holds a nil `*v3.GlobalDNS`; it is not the nil
interface. -/
theorem second_run_result_is_not_nil_interface :
    (sync scenarioEnv (some (recordFor "" ["c1:p1"] []))).val =
        RuntimeObject.ofGlobalDNS
          (some ⟨none, ⟨"a.example.com", "", ["c1:p1"]⟩,
            ⟨["10.0.0.1", "10.0.0.2"], [("c1", ["10.0.0.1", "10.0.0.2"])]⟩⟩) ∧
      (sync scenarioEnv (some (recordFor "" ["c1:p1"] []))).err = none ∧
      Event.storeUpdate ⟨none, ⟨"a.example.com", "", ["c1:p1"]⟩,
          ⟨["10.0.0.1", "10.0.0.2"], [("c1", ["10.0.0.1", "10.0.0.2"])]⟩⟩ ∈
        (sync scenarioEnv (some (recordFor "" ["c1:p1"] []))).trace ∧
      (sync scenarioEnv (some ⟨none, ⟨"a.example.com", "", ["c1:p1"]⟩,
          ⟨["10.0.0.1", "10.0.0.2"], [("c1", ["10.0.0.1", "10.0.0.2"])]⟩⟩)).val =
        RuntimeObject.ofGlobalDNS none ∧
      (sync scenarioEnv (some ⟨none, ⟨"a.example.com", "", ["c1:p1"]⟩,
          ⟨["10.0.0.1", "10.0.0.2"], [("c1", ["10.0.0.1", "10.0.0.2"])]⟩⟩)).val ≠
        RuntimeObject.nil :=
  ⟨by decide, by decide, by decide, by decide, by decide⟩

/-- C2, amended. Suppose the comparison reports no difference between a
sequence and itself and the merge step leaves the record's spec, deletion
marker and entry for this cluster as it finds them. If a run of `sync` on a
record commits, that is, hands `p` to the store `Update` and gets `p` back
without error, then a run of `sync` on `p` against the same snapshot invokes
neither the store `Update` nor the merge step and returns a nil error and no
record: the `runtime.Object` it returns holds a nil `*v3.GlobalDNS`. -/
theorem sync_idempotent (env : Env) (obj p : GlobalDNS)
    (hrefl : ∀ s, env.ifEndpointsDiffer s s = false)
    (hmerge : ∀ r, (env.reconcileGlobalDNSEndpoints r).spec = r.spec ∧
      (env.reconcileGlobalDNSEndpoints r).deletionTimestamp = r.deletionTimestamp ∧
      mapGet? (env.reconcileGlobalDNSEndpoints r).status.clusterEndpoints env.clusterName =
        mapGet? r.status.clusterEndpoints env.clusterName)
    (hval : (sync env (some obj)).val = RuntimeObject.ofGlobalDNS (some p))
    (herr : (sync env (some obj)).err = none)
    (hstore : Event.storeUpdate p ∈ (sync env (some obj)).trace) :
    (sync env (some p)).val = RuntimeObject.ofGlobalDNS none ∧
      (sync env (some p)).err = none ∧
      ∀ r, Event.storeUpdate r ∉ (sync env (some p)).trace ∧
        Event.reconcileEndpoints r ∉ (sync env (some p)).trace := by
  have hdel : obj.deletionTimestamp = none := by
    by_contra hd
    simp [sync, hd] at hval
  rw [sync_of_live env obj hdel] at hval herr hstore
  cases hte : (targetEndpointsOf env obj).err with
  | some e => simp [hte] at herr
  | none =>
    simp only [hte] at hval herr hstore
    have hd : env.ifEndpointsDiffer (storedEndpoints env obj) (targetEndpointsOf env obj).val
        = true := by
      by_contra hnd
      simp only [Bool.not_eq_true] at hnd
      rw [refresh_of_same env obj _ hnd] at hval
      simp at hval
    obtain ⟨htr, _, _⟩ := refresh_of_differ env obj _ hd
    rw [htr] at hstore
    have hp : p = env.reconcileGlobalDNSEndpoints
        (withClusterEndpoints env obj (targetEndpointsOf env obj).val) := by
      rcases List.mem_append.mp hstore with h | h
      · exact absurd h (targetEndpointsOf_quiet env obj p).1
      · simpa using h
    have hspec : p.spec = obj.spec := by
      rw [hp, (hmerge _).1]
      rfl
    have hdp : p.deletionTimestamp = none := by
      rw [hp, (hmerge _).2.1]
      exact hdel
    have hstored : storedEndpoints env p = (targetEndpointsOf env obj).val := by
      unfold storedEndpoints mapGetSlice
      rw [hp, (hmerge _).2.2]
      simp [withClusterEndpoints, mapGet?_mapSet_self]
    rw [sync_of_live env p hdp, targetEndpointsOf_congr env obj p hspec, hte]
    have hsame : env.ifEndpointsDiffer (storedEndpoints env p)
        (targetEndpointsOf env obj).val = false := by
      rw [hstored]
      exact hrefl _
    rw [refresh_of_same env p _ hsame]
    refine ⟨rfl, rfl, fun r => ?_⟩
    simpa using targetEndpointsOf_quiet env obj r

/-- Witness of C2 as amended: the scenario of section 8, run on the record
that a first run on a record without stored endpoints has persisted. -/
theorem sync_idempotent_witness :
    (sync scenarioEnv (some ⟨none, ⟨"a.example.com", "", ["c1:p1"]⟩,
          ⟨["10.0.0.1", "10.0.0.2"], [("c1", ["10.0.0.1", "10.0.0.2"])]⟩⟩)).val =
        RuntimeObject.ofGlobalDNS none ∧
      (sync scenarioEnv (some ⟨none, ⟨"a.example.com", "", ["c1:p1"]⟩,
          ⟨["10.0.0.1", "10.0.0.2"], [("c1", ["10.0.0.1", "10.0.0.2"])]⟩⟩)).err = none ∧
      ∀ r, Event.storeUpdate r ∉
          (sync scenarioEnv (some ⟨none, ⟨"a.example.com", "", ["c1:p1"]⟩,
            ⟨["10.0.0.1", "10.0.0.2"], [("c1", ["10.0.0.1", "10.0.0.2"])]⟩⟩)).trace ∧
        Event.reconcileEndpoints r ∉
          (sync scenarioEnv (some ⟨none, ⟨"a.example.com", "", ["c1:p1"]⟩,
            ⟨["10.0.0.1", "10.0.0.2"], [("c1", ["10.0.0.1", "10.0.0.2"])]⟩⟩)).trace :=
  sync_idempotent scenarioEnv (recordFor "" ["c1:p1"] []) _
    (fun s => by simp [scenarioEnv, ifEndpointsDifferSpec, List.isPerm_iff])
    (fun _ => ⟨rfl, rfl, rfl⟩) (by decide) (by decide) (by decide)

/-! ## Scope resolution: the project list when every listing succeeds -/

theorem listNamespacesLoop_ok (env : Env) (nss : List String) (acc : List Ingress)
    (tr : List Event) (h : ∀ ns ∈ nss, ∃ l, env.ingressList ns = .ok l) :
    listNamespacesLoop env nss acc tr =
      (.ok (acc ++ nss.flatMap (ingressesOf env)), tr ++ nss.map Event.ingressList) := by
  induction nss generalizing acc tr with
  | nil => simp [listNamespacesLoop]
  | cons ns rest ih =>
    obtain ⟨l, hl⟩ := h ns (by simp)
    have hrest : ∀ n ∈ rest, ∃ l, env.ingressList n = .ok l :=
      fun n hn => h n (by simp [hn])
    simp [listNamespacesLoop, hl, ih _ _ hrest, ingressesOf]

theorem scopedNamespaces_cons (env : Env) (e : String) (rest : List String)
    (nss : List Namespace) :
    scopedNamespaces env (e :: rest) nss =
      scopedNamespaces env [e] nss ++ scopedNamespaces env rest nss := by
  simp [scopedNamespaces]

theorem projectsLoop_ok (env : Env) (obj : GlobalDNS) (nss : List Namespace)
    (refs : List String) (acc : List Ingress) (tr : List Event)
    (hwf : ∀ e ∈ refs, ':' ∈ e.data)
    (hing : ∀ ns ∈ scopedNamespaces env refs nss, ∃ l, env.ingressList ns = .ok l) :
    projectsLoop env obj nss refs acc tr =
      ⟨(fetchGlobalDNSEndpointsForIngresses env
          (acc ++ (scopedNamespaces env refs nss).flatMap (ingressesOf env)) obj).1,
        none, tr ++ (scopedNamespaces env refs nss).map Event.ingressList⟩ := by
  induction refs generalizing acc tr with
  | nil => simp [projectsLoop, scopedNamespaces, fetch_eq]
  | cons e rest ih =>
    obtain ⟨a, b, hc, _⟩ := splitN2_of_colon e (hwf e (by simp))
    have hwf' : ∀ e' ∈ rest, ':' ∈ e'.data := fun e' he' => hwf e' (by simp [he'])
    rw [scopedNamespaces_cons] at hing
    have hing' : ∀ ns ∈ scopedNamespaces env rest nss, ∃ l, env.ingressList ns = .ok l :=
      fun ns hns => hing ns (List.mem_append.mpr (Or.inr hns))
    rw [projectsLoop_cons_colon env obj nss e rest acc tr a b hc, scopedNamespaces_cons]
    by_cases hcl : String.mk a = env.clusterName
    · have hscope : scopedNamespaces env [e] nss = namespacesLabelled env (String.mk b) nss := by
        simp [scopedNamespaces, hc, hcl]
      have hhere : ∀ ns ∈ namespacesLabelled env (String.mk b) nss,
          ∃ l, env.ingressList ns = .ok l :=
        fun ns hns => hing ns (List.mem_append.mpr (Or.inl (by rw [hscope]; exact hns)))
      simp only [hcl, ne_eq, not_true_eq_false, if_false, namespacesInProject_eq,
        List.nil_append, listNamespacesLoop_ok env _ acc tr hhere]
      rw [ih _ _ hwf' hing', hscope]
      simp [List.append_assoc]
    · have hscope : scopedNamespaces env [e] nss = [] := by
        simp [scopedNamespaces, hc, hcl]
      simp only [hcl, ne_eq, not_false_eq_true, if_true]
      rw [ih _ _ hwf' hing', hscope]
      simp

/-- C8. With well-formed `projectRefs`, a namespace snapshot and every
ingress listing in scope succeeding, `reconcileProjects` returns no error;
after the namespace listing it lists the ingresses of exactly the namespaces
whose project label (the empty string when absent) equals, ignoring case,
the project of an entry of this cluster, entry by entry in list order and
within an entry in snapshot order; and it returns the endpoint extraction of
the concatenation of those ingress lists. -/
theorem reconcileProjects_scope (env : Env) (obj : GlobalDNS) (nss : List Namespace)
    (hns : env.namespaceList = .ok nss)
    (hwf : ∀ e ∈ obj.spec.projectNames, ':' ∈ e.data)
    (hing : ∀ ns ∈ scopedNamespaces env obj.spec.projectNames nss,
      ∃ l, env.ingressList ns = .ok l) :
    (reconcileProjects env obj).err = none ∧
    (reconcileProjects env obj).trace =
      Event.namespaceList ::
        (scopedNamespaces env obj.spec.projectNames nss).map Event.ingressList ∧
    (reconcileProjects env obj).val =
      (fetchGlobalDNSEndpointsForIngresses env
        ((scopedNamespaces env obj.spec.projectNames nss).flatMap (ingressesOf env)) obj).1 := by
  unfold reconcileProjects
  simp only [hns]
  rw [projectsLoop_ok env obj nss _ _ _ hwf hing]
  simp

/-- Witness of C8: `projectRefs = ["c1:p1"]` in cluster `c1`, namespaces
`ns1` and `ns2` labelled `p1`, one annotated ingress in each. -/
theorem reconcileProjects_scope_witness :
    scopedNamespaces scenarioEnv (recordFor "" ["c1:p1"] []).spec.projectNames
        [⟨"ns1", [("field.cattle.io/projectId", "p1")]⟩, ⟨"default", []⟩,
          ⟨"other", [("field.cattle.io/projectId", "p9")]⟩,
          ⟨"ns2", [("field.cattle.io/projectId", "p1")]⟩] = ["ns1", "ns2"] ∧
      (reconcileProjects scenarioEnv (recordFor "" ["c1:p1"] [])).val =
        ["10.0.0.1", "10.0.0.2"] ∧
      (reconcileProjects scenarioEnv (recordFor "" ["c1:p1"] [])).err = none ∧
      (reconcileProjects scenarioEnv (recordFor "" ["c1:p1"] [])).trace =
        [Event.namespaceList, Event.ingressList "ns1", Event.ingressList "ns2"] := by
  have hscope : scopedNamespaces scenarioEnv (recordFor "" ["c1:p1"] []).spec.projectNames
      [⟨"ns1", [("field.cattle.io/projectId", "p1")]⟩, ⟨"default", []⟩,
        ⟨"other", [("field.cattle.io/projectId", "p9")]⟩,
        ⟨"ns2", [("field.cattle.io/projectId", "p1")]⟩] = ["ns1", "ns2"] := by decide
  obtain ⟨h1, h2, h3⟩ := reconcileProjects_scope scenarioEnv (recordFor "" ["c1:p1"] []) _ rfl
    (by decide)
    (by
      rw [hscope]
      intro ns hns
      simp only [List.mem_cons, List.mem_singleton, List.not_mem_nil, or_false] at hns
      rcases hns with rfl | rfl
      · exact ⟨_, rfl⟩
      · exact ⟨_, rfl⟩)
  rw [hscope] at h2 h3
  exact ⟨hscope, by rw [h3]; decide, h1, h2⟩

/-! ## Scope resolution: entries of other clusters -/

theorem targetsLoop_filter_own (env : Env) (obj : GlobalDNS) (ts : List Target)
    (acc : List Ingress) (tr : List Event) (hwf : ∀ t ∈ ts, ':' ∈ t.projectName.data) :
    targetsLoop env obj ts acc tr =
      targetsLoop env obj (ts.filter (fun t => ofThisCluster env t.projectName)) acc tr := by
  induction ts generalizing acc tr with
  | nil => rfl
  | cons t rest ih =>
    obtain ⟨a, b, hc, _⟩ := splitN2_of_colon t.projectName (hwf t (by simp))
    have hwf' : ∀ t' ∈ rest, ':' ∈ t'.projectName.data := fun t' ht' => hwf t' (by simp [ht'])
    have hown := ofThisCluster_of_cut env t.projectName a b hc
    by_cases hcl : String.mk a = env.clusterName
    · rw [List.filter_cons_of_pos (by simp [hown, hcl]),
        targetsLoop_cons_colon env obj t rest acc tr a b hc,
        targetsLoop_cons_colon env obj t _ acc tr a b hc]
      simp only [hcl, ne_eq, not_true_eq_false, if_false]
      cases hl : env.ingressList t.appName with
      | error e => rfl
      | ok l => exact ih _ _ hwf'
    · rw [List.filter_cons_of_neg (by simp [hown, hcl]),
        targetsLoop_cons_colon env obj t rest acc tr a b hc]
      simp only [hcl, ne_eq, not_false_eq_true, if_true]
      exact ih _ _ hwf'

theorem projectsLoop_filter_own (env : Env) (obj : GlobalDNS) (nss : List Namespace)
    (refs : List String) (acc : List Ingress) (tr : List Event)
    (hwf : ∀ e ∈ refs, ':' ∈ e.data) :
    projectsLoop env obj nss refs acc tr =
      projectsLoop env obj nss (refs.filter (ofThisCluster env)) acc tr := by
  induction refs generalizing acc tr with
  | nil => rfl
  | cons e rest ih =>
    obtain ⟨a, b, hc, _⟩ := splitN2_of_colon e (hwf e (by simp))
    have hwf' : ∀ e' ∈ rest, ':' ∈ e'.data := fun e' he' => hwf e' (by simp [he'])
    have hown := ofThisCluster_of_cut env e a b hc
    by_cases hcl : String.mk a = env.clusterName
    · rw [List.filter_cons_of_pos (by simp [hown, hcl]),
        projectsLoop_cons_colon env obj nss e rest acc tr a b hc,
        projectsLoop_cons_colon env obj nss e _ acc tr a b hc]
      simp only [hcl, ne_eq, not_true_eq_false, if_false]
      cases hl : listNamespacesLoop env (namespacesInProject env (String.mk b) nss []) acc tr with
      | mk r tr' =>
        cases r with
        | error err => rfl
        | ok acc' => exact ih _ _ hwf'
    · rw [List.filter_cons_of_neg (by simp [hown, hcl]),
        projectsLoop_cons_colon env obj nss e rest acc tr a b hc]
      simp only [hcl, ne_eq, not_false_eq_true, if_true]
      exact ih _ _ hwf'

theorem targetsLoop_keepOwnTargets (env : Env) (obj : GlobalDNS) (ts : List Target)
    (acc : List Ingress) (tr : List Event) :
    targetsLoop env.keepOwnTargets obj ts acc tr = targetsLoop env obj ts acc tr := by
  induction ts generalizing acc tr with
  | nil =>
    simp only [targetsLoop, fetch_eq]
    rfl
  | cons t rest ih =>
    cases hc : cutColon t.projectName.data with
    | none =>
      rw [targetsLoop_cons_no_colon env obj t rest acc tr hc,
        targetsLoop_cons_no_colon env.keepOwnTargets obj t rest acc tr hc]
    | some p =>
      obtain ⟨a, b⟩ := p
      rw [targetsLoop_cons_colon env obj t rest acc tr a b hc,
        targetsLoop_cons_colon env.keepOwnTargets obj t rest acc tr a b hc]
      simp only [ih]
      rfl

/-- C6. In both resolution modes, over a list of well-formed entries of any
length, scope resolution gives the same endpoints, the same error and the
same calls as on the list with every entry of another cluster removed, and
every ingress listing it makes is made for an entry whose part before the
first `':'` is this controller's cluster name. -/
theorem scope_ignores_other_clusters (env : Env) (obj : GlobalDNS) :
    (∀ nss, env.namespaceList = .ok nss →
      (∀ e ∈ obj.spec.projectNames, ':' ∈ e.data) →
      reconcileProjects env obj = reconcileProjects env (keepOwnProjects env obj) ∧
      ∀ ns, Event.ingressList ns ∈ (reconcileProjects env obj).trace →
        ∃ e ∈ obj.spec.projectNames, clusterPart e = some env.clusterName ∧
          ns ∈ scopedNamespaces env [e] nss) ∧
    (∀ name mcapp, env.getMultiClusterAppName obj.spec.multiClusterAppName = .ok name →
      env.multiclusterappGet env.globalNamespace name = .ok mcapp →
      (∀ t ∈ mcapp.targets, ':' ∈ t.projectName.data) →
      reconcileMultiClusterApp env obj = reconcileMultiClusterApp env.keepOwnTargets obj ∧
      ∀ ns, Event.ingressList ns ∈ (reconcileMultiClusterApp env obj).trace →
        ∃ t ∈ mcapp.targets, clusterPart t.projectName = some env.clusterName ∧
          t.appName = ns) := by
  constructor
  · intro nss hns hwf
    constructor
    · unfold reconcileProjects
      simp only [hns]
      rw [projectsLoop_filter_own env obj nss _ _ _ hwf]
      exact (projectsLoop_congr env obj (keepOwnProjects env obj) rfl nss _ _ _).symm
    · intro ns hmem
      unfold reconcileProjects at hmem
      simp only [hns] at hmem
      rcases projectsLoop_trace_mem env obj nss _ _ _ _ hmem with h | ⟨e, he, ho, n, hn, hev⟩
      · simp at h
      · cases hev
        exact ⟨e, he, by simpa [ofThisCluster] using ho, hn⟩
  · intro name mcapp hname hget hwf
    constructor
    · unfold reconcileMultiClusterApp
      have hget' : env.keepOwnTargets.multiclusterappGet env.globalNamespace name =
          .ok ⟨mcapp.targets.filter (fun t => ofThisCluster env t.projectName)⟩ := by
        simp [Env.keepOwnTargets, hget]
      have hname' : env.keepOwnTargets.getMultiClusterAppName obj.spec.multiClusterAppName =
          .ok name := hname
      have hns' : env.keepOwnTargets.globalNamespace = env.globalNamespace := rfl
      simp only [hname, hget, hname', hns', hget', targetsLoop_keepOwnTargets]
      exact targetsLoop_filter_own env obj _ _ _ hwf
    · intro ns hmem
      unfold reconcileMultiClusterApp at hmem
      simp only [hname, hget] at hmem
      rcases targetsLoop_trace_mem env obj _ _ _ _ hmem with h | ⟨t, ht, ho, hev⟩
      · simp at h
      · cases hev
        exact ⟨t, ht, by simpa [ofThisCluster] using ho, rfl⟩

/-- Witness of C6: the multi-cluster app `shop` has a target in cluster
`c2`, whose namespace is never listed. -/
theorem scope_ignores_other_clusters_witness :
    (reconcileMultiClusterApp scenarioEnv (recordFor "shop" [] [])).trace =
        [Event.multiclusterappGet "cattle-global-data" "shop", Event.ingressList "app1",
          Event.ingressList "app3"] ∧
      reconcileMultiClusterApp scenarioEnv (recordFor "shop" [] []) =
        reconcileMultiClusterApp scenarioEnv.keepOwnTargets (recordFor "shop" [] []) ∧
      reconcileProjects scenarioEnv (recordFor "" ["c2:p1", "c1:p1", "c3:p9"] []) =
        reconcileProjects scenarioEnv
          (keepOwnProjects scenarioEnv (recordFor "" ["c2:p1", "c1:p1", "c3:p9"] [])) :=
  ⟨by decide,
    ((scope_ignores_other_clusters scenarioEnv (recordFor "shop" [] [])).2 "shop" _ rfl rfl
      (by decide)).1,
    ((scope_ignores_other_clusters scenarioEnv
      (recordFor "" ["c2:p1", "c1:p1", "c3:p9"] [])).1 _ rfl (by decide)).1⟩

end UserGlobalDNS
